import Mathlib

/-!
Verification development for the ketaverso-bot-info Discord bot (`main.py`).

Python strings are modelled as lists of Unicode code points (`List Nat`);
`strCodes` converts a Lean string literal into that representation.  The
Unicode data consulted by `unicodedata.normalize('NFKD', ·)` and
`unicodedata.combining` is modelled for a representative character
repertoire: ASCII plus the Spanish accented letters the bot is designed
around (á é í ó ú ü ñ and their upper-case forms); characters outside the
repertoire decompose to themselves, and the combining-mark test is the
Combining Diacritical Marks block U+0300..U+036F.
-/

/-- Code points of a Lean string literal, used to transcribe the Python
string constants of `main.py`. -/
def strCodes (s : String) : List Nat := s.data.map (fun c => c.toNat)

/-- Modelled NFKD decomposition of a single code point (see module header):
each supported precomposed letter decomposes into its base letter followed
by a combining mark; everything else is its own decomposition. -/
def nfkdChar (n : Nat) : List Nat :=
  if n = 225 then [97, 769]
  else if n = 233 then [101, 769]
  else if n = 237 then [105, 769]
  else if n = 243 then [111, 769]
  else if n = 250 then [117, 769]
  else if n = 252 then [117, 776]
  else if n = 241 then [110, 771]
  else if n = 193 then [65, 769]
  else if n = 201 then [69, 769]
  else if n = 205 then [73, 769]
  else if n = 211 then [79, 769]
  else if n = 218 then [85, 769]
  else if n = 220 then [85, 776]
  else if n = 209 then [78, 771]
  else [n]

/-- Modelled `unicodedata.combining(c) != 0` test: the Combining
Diacritical Marks block U+0300..U+036F. -/
def combining (n : Nat) : Bool := decide (768 ≤ n ∧ n ≤ 879)

/-- The `.replace('ñ', 'n').replace('Ñ', 'N')` step of `normalizar_texto`,
applied code point by code point (both patterns are single characters). -/
def substEnye (n : Nat) : Nat := if n = 241 then 110 else if n = 209 then 78 else n

/-- Modelled `str.lower` on one code point (ASCII letters in the
repertoire; accented letters are decomposed before lowering). -/
def lowerChar (n : Nat) : Nat := if 65 ≤ n ∧ n ≤ 90 then n + 32 else n

/-- The function `normalizar_texto` from `main.py` lines 61-66: NFKD-decompose, drop
combining marks, replace ñ/Ñ by n/N, lower-case. -/
def normalizar_texto (s : List Nat) : List Nat :=
  (((s.flatMap nfkdChar).filter (fun c => !combining c)).map substEnye).map lowerChar

/-- A code point on which every stage of `normalizar_texto` acts as the
identity. -/
def stableChar (c : Nat) : Prop :=
  nfkdChar c = [c] ∧ combining c = false ∧ substEnye c = c ∧ lowerChar c = c

instance (c : Nat) : Decidable (stableChar c) := by
  unfold stableChar; infer_instance

/-!
## Alias table and admin commands

`ALIASES` (`main.py` line 28) is a Python dict from normalized alias to
canonical substance name, modelled as an insertion-ordered association
list.  `VALID_SUBSTANCES` (line 31) is `list(ALIASES.values())`.
-/

/-- Modelled `str.lower()` over a whole string (see `lowerChar`). -/
def pyLower (s : List Nat) : List Nat := s.map lowerChar

/-- Python `str.strip()` whitespace test, for the ASCII whitespace
code points. -/
def isPySpace (n : Nat) : Bool := decide (n = 9 ∨ n = 10 ∨ n = 11 ∨ n = 12 ∨ n = 13 ∨ n = 32)

/-- Python `str.strip()`: drop leading and trailing whitespace. -/
def pyStrip (s : List Nat) : List Nat :=
  ((s.dropWhile isPySpace).reverse.dropWhile isPySpace).reverse

/-- Dict lookup `m.get(k)` -/
def dictLookup (m : List (List Nat × List Nat)) (k : List Nat) : Option (List Nat) :=
  (m.find? (fun q => decide (q.1 = k))).map Prod.snd

/-- Dict assignment `m[k] = v`: update the existing key in place, else
append a new entry (Python dicts preserve insertion order). -/
def dictInsert (m : List (List Nat × List Nat)) (k v : List Nat) :
    List (List Nat × List Nat) :=
  match m with
  | [] => [(k, v)]
  | p :: rest => if p.1 = k then (k, v) :: rest else p :: dictInsert rest k v

/-- Lookup `ALIASES.get(x, x)` — the alias-resolution step of the `/info`
command (`main.py` line 154): lookup with fallback to the input. -/
def resolveAlias (m : List (List Nat × List Nat)) (k : List Nat) : List Nat :=
  (dictLookup m k).getD k

/-- Remove duplicates keeping first occurrences.  Stands in for Python's
`list(set(...))` (line 301), whose iteration order is interpreter
specific; only the underlying set is meaningful, and no claim depends on
the order. -/
def dedupGo : List (List Nat) → List (List Nat) → List (List Nat)
  | [], _ => []
  | x :: xs, seen => if x ∈ seen then dedupGo xs seen else x :: dedupGo xs (x :: seen)

def dedupKeepFirst (l : List (List Nat)) : List (List Nat) := dedupGo l []

/-- The process-wide mutable state touched by the alias commands:
the `ALIASES` dict and the `VALID_SUBSTANCES` list. -/
structure AdminState where
  aliases : List (List Nat × List Nat)
  validSubstances : List (List Nat)

/-- Outcome of the `alias.json` file write in `ConfirmAliasView.confirm`. -/
inductive WriteOutcome
  | ok
  | ioError

/-- An apostrophe code point (U+0027), used in the confirm message. -/
def apos : List Nat := [39]

/-- The success message of `ConfirmAliasView.confirm` (line 303). -/
def aliasSavedMsg (aliasName targetName : List Nat) : List Nat :=
  strCodes ("✅ Alias ") ++ apos ++ aliasName ++ apos ++
    strCodes (" ahora apunta a ") ++ apos ++ targetName ++ apos ++ strCodes (".")

/-- The persistence-failure message of `ConfirmAliasView.confirm`
(line 306). -/
def aliasSaveFailMsg : List Nat :=
  strCodes ("❌ Error al guardar el alias en el fichero.")

/-- The `normalized_target` value as computed by the `/alias` command (line 332):
`target_name.lower().strip()`. -/
def adminNormalizeTarget (targetName : List Nat) : List Nat :=
  pyStrip (pyLower targetName)

/-- Handler `ConfirmAliasView.confirm` (`main.py` lines 290-309): insert the
normalized alias, extend `VALID_SUBSTANCES` if needed, then try to write
`alias.json`.  On success `VALID_SUBSTANCES` is recomputed as
`list(set(ALIASES.values()))` and the success message is sent; on
`IOError` the failure message is sent and the in-memory state keeps the
new entry (no rollback). -/
def confirmAlias (st : AdminState) (aliasName targetName normAlias normTarget : List Nat)
    (w : WriteOutcome) : AdminState × List Nat :=
  let aliases1 := dictInsert st.aliases normAlias normTarget
  let valid1 :=
    if normTarget ∈ st.validSubstances then st.validSubstances
    else st.validSubstances ++ [normTarget]
  match w with
  | .ok => (⟨aliases1, dedupKeepFirst (aliases1.map Prod.snd)⟩, aliasSavedMsg aliasName targetName)
  | .ioError => (⟨aliases1, valid1⟩, aliasSaveFailMsg)

/-!
## `/aliases` pagination (`main.py` lines 358-393)
-/

/-- One rendered line of the `/aliases` listing (line 358). -/
def aliasLine (a t : List Nat) : List Nat :=
  strCodes ("`") ++ a ++ strCodes ("` -> `") ++ t ++ strCodes ("`")

/-- The page-splitting loop of the `/aliases` command (lines 365-386):
if adding the next line (plus its newline) would push the current page
body past 4000 characters, flush the current body as a page and start a
new one; at the end flush the final non-empty body. -/
def buildPagesLoop : List (List Nat) → List Nat → List (List Nat) → List (List Nat)
  | [], cur, acc => if cur.isEmpty then acc else acc ++ [cur]
  | item :: rest, cur, acc =>
    if 4000 < cur.length + item.length + 1 then
      buildPagesLoop rest (item ++ [10]) (acc ++ [cur])
    else
      buildPagesLoop rest (cur ++ item ++ [10]) acc

/-- Page bodies produced by the `/aliases` command for a given alias
table. -/
def aliasPages (table : List (List Nat × List Nat)) : List (List Nat) :=
  buildPagesLoop (table.map (fun p => aliasLine p.1 p.2)) [] []

/-!
## Substance records and embed rendering (`main.py` lines 100-132, 395-489)

A parsed substance record is modelled structurally.  JSON numbers inside
dose/duration/bioavailability ranges are modelled by their rendered
decimal text (`List Nat`), since the code only ever interpolates them
into f-strings.  A missing/null/empty ("falsy") sub-object is modelled as
`none` wherever the code only tests truthiness.
-/

structure JRange where
  rmin : Option (List Nat)
  rmax : Option (List Nat)
deriving DecidableEq

inductive DoseVal
  | absent
  | scalar (v : List Nat)
  | range (r : JRange)
deriving DecidableEq

structure DoseInfo where
  units : Option (List Nat)
  threshold : DoseVal
  light : DoseVal
  common : DoseVal
  strong : DoseVal
  heavy : DoseVal
deriving DecidableEq

structure DurRange where
  rmin : Option (List Nat)
  rmax : Option (List Nat)
  units : Option (List Nat)
deriving DecidableEq

structure DurationInfo where
  onset : Option DurRange
  comeup : Option DurRange
  peak : Option DurRange
  offset : Option DurRange
  afterglow : Option DurRange
  total : Option DurRange
deriving DecidableEq

structure Roa where
  name : Option (List Nat)
  dose : Option DoseInfo
  duration : Option DurationInfo
  bioavailability : Option JRange
deriving DecidableEq

structure Effect where
  name : List Nat
deriving DecidableEq

structure Substance where
  name : Option (List Nat)
  commonNames : List (List Nat)
  effects : List Effect
  roas : List Roa
deriving DecidableEq

/-- A rendered Discord embed, reduced to the parts the code fills in:
title, ordered field list, optional footer text. -/
structure EmbedField where
  name : List Nat
  value : List Nat
  isInline : Bool
deriving DecidableEq

structure DEmbed where
  title : List Nat
  fields : List EmbedField
  footer : Option (List Nat)
deriving DecidableEq

/-- Plain `embed.add_field` (this variant, as used for the dose and duration
sections). -/
def addField (e : DEmbed) (name value : List Nat) (isInline : Bool) : DEmbed :=
  ⟨e.title, e.fields ++ [⟨name, value, isInline⟩], e.footer⟩

/-- Helper `safe_add_field` (`main.py` lines 100-107): strip the value, skip the
field when empty, truncate past 1024 characters to 1021 plus an
ellipsis. -/
def safe_add_field (e : DEmbed) (name value : List Nat) (isInline : Bool) : DEmbed :=
  let v := pyStrip value
  if v.isEmpty then e
  else
    let v2 := if 1024 < v.length then v.take 1021 ++ strCodes ("...") else v
    ⟨e.title, e.fields ++ [⟨name, v2, isInline⟩], e.footer⟩

/-- Name lookup `info.get("name", "Desconocido")`. -/
def getNameD (info : Substance) : List Nat := info.name.getD (strCodes ("Desconocido"))

/-- The substitution `name.replace(' ', '_')` for the wiki link. -/
def wikiNameUnderscore (name : List Nat) : List Nat :=
  name.map (fun c => if c = 32 then 95 else c)

/-- The value of the effects field (lines 124-130): first ten effect
names joined by commas, plus a wiki link when there are more. -/
def effectsValue (info : Substance) (name : List Nat) : List Nat :=
  let lista := List.intercalate (strCodes (", ")) ((info.effects.take 10).map Effect.name)
  if 10 < info.effects.length then
    lista ++ [10] ++ strCodes ("[Ver todos los efectos](https://psychonautwiki.org/wiki/")
      ++ wikiNameUnderscore name ++ strCodes ("#Effects)")
  else lista

/-- Builder `crear_embed_base` (lines 109-132). -/
def crear_embed_base (info : Substance) : DEmbed :=
  let name := getNameD info
  let e : DEmbed := ⟨strCodes ("🔍 ") ++ name, [], none⟩
  let e := if info.commonNames.isEmpty then e
    else safe_add_field e (strCodes ("🔹 También llamado"))
      (List.intercalate (strCodes (", ")) info.commonNames) false
  if info.effects.isEmpty then e
  else safe_add_field e (strCodes ("🎯 Efectos")) (effectsValue info name) false

/-- Emoji lookup `ROA_EMOJIS.get(name, '❓')` (lines 79-87). -/
def roaEmoji (n : List Nat) : List Nat :=
  if n = strCodes ("oral") then strCodes ("💊")
  else if n = strCodes ("insufflated") then strCodes ("👃")
  else if n = strCodes ("smoked") then strCodes ("🚬💨")
  else if n = strCodes ("intravenous") then strCodes ("💉🩸")
  else if n = strCodes ("intramuscular") then strCodes ("💉💪")
  else if n = strCodes ("sublingual") then strCodes ("👅")
  else if n = strCodes ("rectal") then strCodes ("🎯 💩")
  else strCodes ("❓")

/-- Modelled ASCII `str.upper` on one code point. -/
def upperChar (n : Nat) : Nat := if 97 ≤ n ∧ n ≤ 122 then n - 32 else n

/-- Python `str.capitalize()`: first character upper-cased, the rest
lower-cased (ASCII model). -/
def pyCapitalize : List Nat → List Nat
  | [] => []
  | c :: cs => upperChar c :: cs.map lowerChar

/-- Label `f"{roa_emoji_char} {roa_name_api.capitalize()}"` — the display name
of a route, as used both in the embed title (line 406) and the button
label (line 468). -/
def roaDisplayName (roaName : List Nat) : List Nat :=
  roaEmoji (pyLower roaName) ++ strCodes (" ") ++ pyCapitalize roaName

/-- Decimal rendering of a number, as code points. -/
def natStr (n : Nat) : List Nat := strCodes (toString n)

/-- Formatter `fmt_range` (lines 414-417): `"min–max units"` stripped when both
bounds are present, a dash placeholder otherwise. -/
def fmt_range (val : Option JRange) (units : List Nat) : List Nat :=
  match val with
  | some r =>
    match r.rmin, r.rmax with
    | some mn, some mx => pyStrip (mn ++ strCodes ("–") ++ mx ++ strCodes (" ") ++ units)
    | _, _ => strCodes ("–")
  | none => strCodes ("–")

/-- One `"__**label**__: value"` row of the dose/duration sections. -/
def sectionRowText (label valStr : List Nat) : List Nat :=
  strCodes ("__**") ++ label ++ strCodes ("**__: ") ++ valStr

/-- One dose level (lines 425-433): a dict value renders as a range, a
numeric value as `"value units"`, anything else is skipped. -/
def doseRow (label : List Nat) (dv : DoseVal) (units : List Nat) : Option (List Nat) :=
  match dv with
  | .absent => none
  | .range r => some (sectionRowText label (fmt_range (some r) units))
  | .scalar v => some (sectionRowText label (v ++ strCodes (" ") ++ units))

/-- The `dosis_txt` rows (lines 419-433), in mapping order; note the
source labels the `threshold` level `"Light"`. -/
def doseRows (dose : Option DoseInfo) : List (List Nat) :=
  match dose with
  | none => []
  | some d =>
    let units := d.units.getD []
    ([(strCodes ("Light"), d.threshold), (strCodes ("Baja"), d.light),
      (strCodes ("Normal"), d.common), (strCodes ("Alta"), d.strong),
      (strCodes ("Muy alta"), d.heavy)]).filterMap (fun p => doseRow p.1 p.2 units)

/-- One duration phase (lines 443-446): present phases render as a
range with their own units. -/
def durRow (label : List Nat) (val : Option DurRange) : Option (List Nat) :=
  match val with
  | none => none
  | some r => some (sectionRowText label (fmt_range (some ⟨r.rmin, r.rmax⟩) (r.units.getD [])))

/-- The `duracion_txt` rows (lines 438-446), in labels order. -/
def durationRows (duration : Option DurationInfo) : List (List Nat) :=
  match duration with
  | none => []
  | some d =>
    ([(strCodes ("Inicio"), d.onset), (strCodes ("Subida"), d.comeup),
      (strCodes ("Pico"), d.peak), (strCodes ("Bajada"), d.offset),
      (strCodes ("Afterglow"), d.afterglow), (strCodes ("Total"), d.total)]).filterMap
      (fun p => durRow p.1 p.2)

/-- Lines 435-436: add the dose field when any level rendered. -/
def doseStage (roa : Roa) (e : DEmbed) : DEmbed :=
  if (doseRows roa.dose).isEmpty then e
  else addField e (strCodes ("💊 **Dosis**")) (List.intercalate [10] (doseRows roa.dose)) false

/-- Lines 447-448: add the duration field when any phase rendered. -/
def durStage (roa : Roa) (e : DEmbed) : DEmbed :=
  if (durationRows roa.duration).isEmpty then e
  else addField e (strCodes ("⏳ **Duración**")) (List.intercalate [10] (durationRows roa.duration)) false

/-- Lines 450-452: add the bioavailability field when both bounds are
present. -/
def bioStage (roa : Roa) (e : DEmbed) : DEmbed :=
  match roa.bioavailability with
  | some b =>
    match b.rmin, b.rmax with
    | some mn, some mx =>
      safe_add_field e (strCodes ("📈 Biodisponibilidad"))
        (strCodes ("*") ++ mn ++ strCodes ("–") ++ mx ++ strCodes ("%*")) false
    | _, _ => e
  | none => e

/-- The dose, duration and bioavailability field-appending steps of
`generar_embed_por_roa` (lines 410-452), applied in source order. -/
def roaDetailOps (roa : Roa) (e : DEmbed) : DEmbed :=
  bioStage roa (durStage roa (doseStage roa e))

/-- The fields those steps contribute on their own. -/
def roaDetailFields (roa : Roa) : List EmbedField := (roaDetailOps roa ⟨[], [], none⟩).fields

/-- Renderer `generar_embed_por_roa` (lines 395-455): base embed; if the index is
out of range return it unchanged, otherwise retitle it for the indexed
route, append the detail fields and set the `"ROA i+1 de n"` footer. -/
def generar_embed_por_roa (info : Substance) (index : Nat) : DEmbed :=
  let e := crear_embed_base info
  let roas := info.roas
  if h : roas.length ≤ index then e
  else
    let roa := roas.get ⟨index, by omega⟩
    let roaName := roa.name.getD (strCodes ("Desconocido"))
    let e : DEmbed :=
      ⟨strCodes ("💡 ") ++ getNameD info ++ strCodes (" - ") ++ roaDisplayName roaName,
        e.fields, e.footer⟩
    let e := roaDetailOps roa e
    ⟨e.title, e.fields,
      some (strCodes ("ROA ") ++ natStr (index + 1) ++ strCodes (" de ") ++ natStr roas.length)⟩

/-- One navigation button of `ROAView.__init__` (lines 457-473): index,
emoji+capitalized label, and whether it carries the active check mark. -/
structure RoaBtn where
  idx : Nat
  label : List Nat
  marked : Bool
deriving DecidableEq

/-- The buttons `ROAView` generates, one per route in order. -/
def roaViewButtons (info : Substance) (current : Nat) : List RoaBtn :=
  info.roas.enum.map (fun p =>
    let nm := p.2.name.getD (strCodes ("ROA ") ++ natStr (p.1 + 1))
    ⟨p.1, roaDisplayName nm, decide (p.1 = current)⟩)

/-- Callback `ROAButton.callback` (lines 481-483): a navigation action on the
button for `index` re-renders the embed for that index. -/
def roaButtonCallback (info : Substance) (index : Nat) : DEmbed :=
  generar_embed_por_roa info index

/-- The first embed the `/info` command renders for a resolved record
(lines 214-220): both the single-ROA static branch and the interactive
branch start from index 0. -/
def infoRenderInitial (s : Substance) : DEmbed := generar_embed_por_roa s 0

/-- Sample record with three routes, used by the C6 witness. -/
def sampleSubstance : Substance :=
  ⟨some (strCodes ("Ketamine")), [], [],
    [⟨some (strCodes ("oral")), none, none, none⟩,
     ⟨some (strCodes ("smoked")), none, none, none⟩,
     ⟨some (strCodes ("rectal")), none, none, none⟩]⟩

/-- Sample record with no routes at all, used by the C10 witness. -/
def sampleNoRoas : Substance :=
  ⟨some (strCodes ("Caffeine")), [strCodes ("cafe")], [⟨strCodes ("Stimulation")⟩], []⟩

/-!
## difflib model (CPython `difflib.SequenceMatcher` / `get_close_matches`)

`main.py` line 205 calls `difflib.get_close_matches(word, possibilities,
n=3, cutoff=0.6)`, which ranks `possibilities` by `SequenceMatcher(None,
x, word).ratio()`.  The matcher is embedded below over code-point lists:
`b2j` with the autojunk popular-element removal, `find_longest_match`
(with an empty junk set, since `isjunk` is `None`), the recursive
matching-blocks decomposition, and the three ratio functions.  Ratios are
exact rationals: for the short strings involved, CPython's doubles are
correctly-rounded images of these rationals and every comparison against
the 0.6 cutoff or between two scores decides identically (distinct
rationals with denominators below 2^11 differ by far more than the
rounding error).  Loops that are not structurally recursive take a fuel
argument whose start value provably outlasts the loop condition, so the
out-of-fuel branch is unreachable (`matchingBlocksGo_fuel` below makes
that exact for the block recursion).
-/

/-- Append index `i` to the entry for code point `c` (b2j construction;
index lists therefore ascend). -/
def b2jAdd (m : List (Nat × List Nat)) (c : Nat) (i : Nat) : List (Nat × List Nat) :=
  match m with
  | [] => [(c, [i])]
  | p :: rest => if p.1 = c then (c, p.2 ++ [i]) :: rest else p :: b2jAdd rest c i

def b2jBuildGo : List Nat → Nat → List (Nat × List Nat) → List (Nat × List Nat)
  | [], _, m => m
  | c :: cs, i, m => b2jBuildGo cs (i + 1) (b2jAdd m c i)

def b2jRaw (b : List Nat) : List (Nat × List Nat) := b2jBuildGo b 0 []

/-- Method `__chain_b` with autojunk: for `len(b) >= 200`, entries occurring more
than `len(b)//100 + 1` times are deleted as popular. -/
def b2jAuto (b : List Nat) : List (Nat × List Nat) :=
  if 200 ≤ b.length then
    (b2jRaw b).filter (fun p => !decide (b.length / 100 + 1 < p.2.length))
  else b2jRaw b

def b2jLookup (m : List (Nat × List Nat)) (c : Nat) : List Nat :=
  ((m.find? (fun p => decide (p.1 = c))).map Prod.snd).getD []

/-- Lookups of the form `j2len.get(j-1, 0)`. -/
def lookupD (m : List (Nat × Nat)) (k : Nat) : Nat :=
  ((m.find? (fun p => decide (p.1 = k))).map Prod.snd).getD 0

/-- The `(besti, bestj, bestsize)` triple of `find_longest_match`. -/
structure Match3 where
  besti : Nat
  bestj : Nat
  size : Nat
deriving DecidableEq

/-- Inner loop of `find_longest_match` over `b2j[a[i]]`: `continue` below
`blo`, `break` at or above `bhi`, extend diagonal runs recorded in the
previous row `j2len`, building the new row and updating the best block.
(`j2len.get(j-1, 0)` is 0 when `j = 0`, since key `-1` is never
present.) -/
def flmInner (blo bhi i : Nat) (j2len : List (Nat × Nat)) :
    List Nat → List (Nat × Nat) → Match3 → List (Nat × Nat) × Match3
  | [], nj, best => (nj, best)
  | j :: js, nj, best =>
    if j < blo then flmInner blo bhi i j2len js nj best
    else if bhi ≤ j then (nj, best)
    else
      let k := (if j = 0 then 0 else lookupD j2len (j - 1)) + 1
      flmInner blo bhi i j2len js ((j, k) :: nj)
        (if best.size < k then ⟨i + 1 - k, j + 1 - k, k⟩ else best)

/-- The main double loop of `find_longest_match` over `i` in
`range(alo, ahi)`. -/
def flmMain (a : List Nat) (b2j : List (Nat × List Nat)) (alo ahi blo bhi : Nat) : Match3 :=
  ((List.range' alo (ahi - alo)).foldl
    (fun st i => flmInner blo bhi i st.1 (b2jLookup b2j (a.getD i 0)) [] st.2)
    ([], ⟨alo, blo, 0⟩)).2

/-- First extension loop: grow the block downward while the preceding
code points match (the junk set is empty because `isjunk` is `None`).
Fuel starts at `besti`; each step needs `alo < besti` and decreases
`besti`, so the condition fails before the fuel can. -/
def extendLower (a b : List Nat) (alo blo : Nat) : Nat → Match3 → Match3
  | 0, best => best
  | fuel + 1, best =>
    if alo < best.besti ∧ blo < best.bestj ∧
        a.getD (best.besti - 1) 0 = b.getD (best.bestj - 1) 0 then
      extendLower a b alo blo fuel ⟨best.besti - 1, best.bestj - 1, best.size + 1⟩
    else best

/-- Second extension loop: grow the block upward while the following code
points match.  Fuel starts at `ahi`; each step needs
`besti + size < ahi` and increases `size`, so the condition fails before
the fuel can. -/
def extendUpper (a b : List Nat) (ahi bhi : Nat) : Nat → Match3 → Match3
  | 0, best => best
  | fuel + 1, best =>
    if best.besti + best.size < ahi ∧ best.bestj + best.size < bhi ∧
        a.getD (best.besti + best.size) 0 = b.getD (best.bestj + best.size) 0 then
      extendUpper a b ahi bhi fuel ⟨best.besti, best.bestj, best.size + 1⟩
    else best

def find_longest_match (a b : List Nat) (b2j : List (Nat × List Nat))
    (alo ahi blo bhi : Nat) : Match3 :=
  let best := flmMain a b2j alo ahi blo bhi
  let best := extendLower a b alo blo best.besti best
  extendUpper a b ahi bhi ahi best

/-- Recursive decomposition of `get_matching_blocks` (a queue in CPython;
order is immaterial here because only the sizes are summed).  Each
recursive call strictly shrinks `(ahi - alo) + (bhi - blo)`, so the
initial fuel `la + lb + 1` outlasts the recursion. -/
def matchingBlocksGo (a b : List Nat) (b2j : List (Nat × List Nat)) :
    Nat → Nat → Nat → Nat → Nat → List Match3
  | 0, _, _, _, _ => []
  | fuel + 1, alo, ahi, blo, bhi =>
    let m := find_longest_match a b b2j alo ahi blo bhi
    if m.size = 0 then []
    else
      (if alo < m.besti ∧ blo < m.bestj then
        matchingBlocksGo a b b2j fuel alo m.besti blo m.bestj
      else []) ++
      [m] ++
      (if m.besti + m.size < ahi ∧ m.bestj + m.size < bhi then
        matchingBlocksGo a b b2j fuel (m.besti + m.size) ahi (m.bestj + m.size) bhi
      else [])

def get_matching_blocks (a b : List Nat) (b2j : List (Nat × List Nat)) : List Match3 :=
  matchingBlocksGo a b b2j (a.length + b.length + 1) 0 a.length 0 b.length

/-- Total `sum(triple[-1] for triple in ...)`. -/
def matchTotal (a b : List Nat) (b2j : List (Nat × List Nat)) : Nat :=
  ((get_matching_blocks a b b2j).map Match3.size).sum

/-- Helper `_calculate_ratio`. -/
def calcRatio (nmatches length : Nat) : ℚ :=
  if length ≠ 0 then 2 * (nmatches : ℚ) / (length : ℚ) else 1

/-- Method `SequenceMatcher.ratio()` for `a` against `b` whose (autojunked) b2j
is given. -/
def smRatio (a b : List Nat) (b2j : List (Nat × List Nat)) : ℚ :=
  calcRatio (matchTotal a b b2j) (a.length + b.length)

/-- Occurrence counts (`fullbcount`). -/
def countAdd (m : List (Nat × Nat)) (c : Nat) : List (Nat × Nat) :=
  match m with
  | [] => [(c, 1)]
  | p :: rest => if p.1 = c then (c, p.2 + 1) :: rest else p :: countAdd rest c

def fullbcount (b : List Nat) : List (Nat × Nat) := b.foldl countAdd []

def lookupInt (m : List (Nat × Int)) (k : Nat) : Option Int :=
  (m.find? (fun p => decide (p.1 = k))).map Prod.snd

def intInsert (m : List (Nat × Int)) (k : Nat) (v : Int) : List (Nat × Int) :=
  match m with
  | [] => [(k, v)]
  | p :: rest => if p.1 = k then (k, v) :: rest else p :: intInsert rest k v

/-- The `avail` loop of `quick_ratio` (counts go negative, hence `Int`). -/
def quickMatchesGo (fb : List (Nat × Nat)) : List Nat → List (Nat × Int) → Nat → Nat
  | [], _, nmatches => nmatches
  | c :: cs, avail, nmatches =>
    let numb : Int :=
      match lookupInt avail c with
      | some n => n
      | none => (((fb.find? (fun p => decide (p.1 = c))).map Prod.snd).getD 0 : Nat)
    quickMatchesGo fb cs (intInsert avail c (numb - 1))
      (if 0 < numb then nmatches + 1 else nmatches)

def smQuickRatio (a b : List Nat) : ℚ :=
  calcRatio (quickMatchesGo (fullbcount b) a [] 0) (a.length + b.length)

def smRealQuickRatio (a b : List Nat) : ℚ :=
  calcRatio (min a.length b.length) (a.length + b.length)

/-- Python string `<`: lexicographic on code points. -/
def strLt : List Nat → List Nat → Bool
  | [], [] => false
  | [], _ :: _ => true
  | _ :: _, [] => false
  | c :: cs, d :: ds => if c < d then true else if d < c then false else strLt cs ds

/-- Python tuple `<` on `(score, name)` pairs. -/
def pairLt (p q : ℚ × List Nat) : Bool :=
  if p.1 < q.1 then true else if q.1 < p.1 then false else strLt p.2 q.2

/-- Stable descending insertion: an element goes after everything
strictly greater and before the first element not above it. -/
def insertDesc (p : ℚ × List Nat) : List (ℚ × List Nat) → List (ℚ × List Nat)
  | [] => [p]
  | q :: qs => if pairLt p q then q :: insertDesc p qs else p :: q :: qs

/-- Stable descending sort by Python tuple order — the semantics of
`heapq.nlargest(n, result)`, which is `sorted(result, reverse=True)[:n]`
up to the `[:n]`. -/
def sortDesc : List (ℚ × List Nat) → List (ℚ × List Nat)
  | [] => []
  | p :: ps => insertDesc p (sortDesc ps)

/-- Function `get_close_matches` before the final score-stripping: filter by the
three cutoff tests in corpus order, then take the `n` largest
`(score, name)` pairs. -/
def scoredMatches (word : List Nat) (possibilities : List (List Nat)) (n : Nat)
    (cutoff : ℚ) : List (ℚ × List Nat) :=
  let b2j := b2jAuto word
  (sortDesc (possibilities.filterMap (fun x =>
    if cutoff ≤ smRealQuickRatio x word ∧ cutoff ≤ smQuickRatio x word ∧
        cutoff ≤ smRatio x word b2j then
      some (smRatio x word b2j, x)
    else none))).take n

def get_close_matches (word : List Nat) (possibilities : List (List Nat)) (n : Nat)
    (cutoff : ℚ) : List (List Nat) :=
  (scoredMatches word possibilities n cutoff).map Prod.snd

/-!
## The `/info` query pipeline (`main.py` lines 136-220)

The network is modelled by the response the primary POST yields, the
translation outcome, and the response a retried POST would yield.  In the
parsed envelope, Python truthiness conflates absent and empty `errors`
lists (both falsy) and absent/null/empty `data` (all falsy, modelled
`none`); `data = some l` is a truthy data object whose `substances` list
is `l` (an absent or null `substances` key yields `[]`).
-/

structure Envelope where
  errors : List (List Nat)
  data : Option (List Substance)
deriving DecidableEq

/-- The body of an HTTP response: unparsable, empty text (`raw_text` falsy,
so `json.loads` is never called and `result` is `None`), or a parsed
envelope. -/
inductive Body
  | malformed
  | emptyText
  | json (e : Envelope)
deriving DecidableEq

/-- What one POST to the GraphQL endpoint yields: an
`aiohttp.ClientError`, or a status code with a body. -/
inductive ApiResponse
  | connError
  | http (status : Nat) (body : Body)
deriving DecidableEq

inductive QueryOutcome
  | statusError (status : Nat)
  | envelopeError
  | parseError
  | connectionError
  | success (substances : List Substance)
deriving DecidableEq

/-- The primary query handling of the `/info` command (lines 158-187):
non-200 status is rejected before parsing; an unparsable body is a JSON
decode failure; a falsy parsed result, an error-bearing envelope, or a
falsy `data` field is an envelope failure; otherwise the substances list
is extracted. -/
def runQuery (resp : ApiResponse) : QueryOutcome :=
  match resp with
  | .connError => .connectionError
  | .http status body =>
    if status ≠ 200 then .statusError status
    else
      match body with
      | .malformed => .parseError
      | .emptyText => .envelopeError
      | .json e =>
        if !e.errors.isEmpty || e.data.isNone then .envelopeError
        else .success (e.data.getD [])

/-- The user-visible outcome of one `/info` invocation, by message kind
(lines 167, 175, 182, 186, 207-212, 214-220). -/
inductive Reply
  | statusErrorMsg (status : Nat)
  | envelopeErrorMsg
  | parseErrorMsg
  | connErrorMsg
  | notFound (suggestions : List (List Nat))
  | view (first : Substance)
deriving DecidableEq

/-- What `GoogleTranslator(...).translate(...)` yields: an exception, a
falsy value (`None`/empty, modelled `none`), or a translated string. -/
inductive TranslationResult
  | raised
  | value (t : Option (List Nat))
deriving DecidableEq

structure PipelineEnv where
  primary : ApiResponse
  translation : TranslationResult
  retry : ApiResponse
deriving DecidableEq

/-- The translation fallback (lines 189-202): translate the original
input; when the translation is truthy and differs (lower-cased) from the
original, issue one retry POST; a 200 response whose parsed envelope has
a truthy `data` field contributes its substances list — the retry path
checks neither the `errors` list nor parse failures, and every exception
(translator, connection, JSON decode) is swallowed, leaving the
contribution empty.  Returns the contribution and whether a retry POST
was issued. -/
def fallbackRun (original : List Nat) (tr : TranslationResult) (retry : ApiResponse) :
    List Substance × Bool :=
  match tr with
  | .raised => ([], false)
  | .value none => ([], false)
  | .value (some t) =>
    if pyLower t ≠ original then
      match retry with
      | .connError => ([], true)
      | .http status body =>
        if status = 200 then
          match body with
          | .malformed => ([], true)
          | .emptyText => ([], true)
          | .json e =>
            match e.data with
            | some subs => (subs, true)
            | none => ([], true)
        else ([], true)
    else ([], false)

def fallbackSubstances (original : List Nat) (tr : TranslationResult)
    (retry : ApiResponse) : List Substance :=
  (fallbackRun original tr retry).1

/-- Line 205: `difflib.get_close_matches(normalized, VALID_SUBSTANCES,
n=3, cutoff=0.6)`. -/
def suggestionsFor (normalized : List Nat) (corpus : List (List Nat)) : List (List Nat) :=
  get_close_matches normalized corpus 3 (3 / 5)

/-- One `/info` run and what it did: the reply sent, whether the
translator was invoked, whether a retry POST was issued, and whether
suggestions were computed. -/
structure RunResult where
  reply : Reply
  translationCalled : Bool
  retryIssued : Bool
  suggestionsComputed : Bool
deriving DecidableEq

/-- The `/info` pipeline (lines 158-220) over a given network
environment: `original` is `sustancia.lower().strip()` and `corpus` is
`VALID_SUBSTANCES`.  A primary query failure replies with that failure's
message and stops; an empty substances list triggers the translation
fallback and then, if still empty, the not-found reply with fuzzy
suggestions; otherwise the first record is rendered. -/
def infoPipeline (original : List Nat) (corpus : List (List Nat)) (env : PipelineEnv) :
    RunResult :=
  match runQuery env.primary with
  | .statusError s => ⟨.statusErrorMsg s, false, false, false⟩
  | .envelopeError => ⟨.envelopeErrorMsg, false, false, false⟩
  | .parseError => ⟨.parseErrorMsg, false, false, false⟩
  | .connectionError => ⟨.connErrorMsg, false, false, false⟩
  | .success primarySubs =>
    let fb := if primarySubs.isEmpty then fallbackRun original env.translation env.retry
      else ([], false)
    let substances := if primarySubs.isEmpty then fb.1 else primarySubs
    match substances with
    | [] => ⟨.notFound (suggestionsFor (normalizar_texto original) corpus),
        primarySubs.isEmpty, fb.2, true⟩
    | s :: _ => ⟨.view s, primarySubs.isEmpty, fb.2, false⟩

/-- Whether a query outcome is a failure (as opposed to a success carrying
a — possibly empty — substances list). -/
def queryFailed : QueryOutcome → Bool
  | .success _ => false
  | _ => true

/-- The failure reply each failing outcome produces. -/
def apiFailureReply : QueryOutcome → Option Reply
  | .statusError s => some (.statusErrorMsg s)
  | .envelopeError => some .envelopeErrorMsg
  | .parseError => some .parseErrorMsg
  | .connectionError => some .connErrorMsg
  | .success _ => none

/-- Whether a reply is one of the API-failure messages. -/
def isApiFailureReply : Reply → Bool
  | .statusErrorMsg _ => true
  | .envelopeErrorMsg => true
  | .parseErrorMsg => true
  | .connErrorMsg => true
  | _ => false

/-- The query-failure condition as the spec's §4.3 words it (non-2xx
transport status, malformed body, connection error, error-bearing or
data-missing envelope).  Stated from the spec, for comparison with
`runQuery`. -/
def specQueryFails (resp : ApiResponse) : Bool :=
  match resp with
  | .connError => true
  | .http status body =>
    if status < 200 ∨ 300 ≤ status then true
    else
      match body with
      | .malformed => true
      | .emptyText => true
      | .json e => !e.errors.isEmpty || e.data.isNone

/-- Bounds invariant of `find_longest_match`: the best block lies inside
the `[alo, ahi) × [blo, bhi)` window. -/
abbrev BestInv (alo ahi blo bhi : Nat) (m : Match3) : Prop :=
  alo ≤ m.besti ∧ m.besti + m.size ≤ ahi ∧ blo ≤ m.bestj ∧ m.bestj + m.size ≤ bhi

/-- Invariant of the `j2len` row read while processing row `i`: every
entry is a window-internal b-index whose recorded run length fits both
the window's left edges. -/
abbrev JInv (alo blo bhi i : Nat) (m : List (Nat × Nat)) : Prop :=
  ∀ p ∈ m, blo ≤ p.1 ∧ p.1 < bhi ∧ p.2 + blo ≤ p.1 + 1 ∧ p.2 + alo ≤ i

/-!
## Theorems
-/

theorem stableChar_of_large (c : Nat) (hc : 1024 ≤ c) : stableChar c := by
  refine ⟨?_, ?_, ?_, ?_⟩
  · unfold nfkdChar
    repeat rw [if_neg (by omega)]
  · simp only [combining, decide_eq_false_iff_not]
    omega
  · unfold substEnye
    repeat rw [if_neg (by omega)]
  · unfold lowerChar
    rw [if_neg (by omega)]

theorem nfkdChar_of_large (c : Nat) (hc : 1024 ≤ c) : nfkdChar c = [c] :=
  (stableChar_of_large c hc).1

set_option maxRecDepth 100000 in
theorem stable_small :
    ∀ c < 1024, ∀ d ∈ nfkdChar c, combining d = false →
      stableChar (lowerChar (substEnye d)) := by decide

/-- Every code point emitted by one pass of `normalizar_texto` is left
unchanged by every stage of a second pass. -/
theorem stable_output (c d : Nat) (hd : d ∈ nfkdChar c) (hcomb : combining d = false) :
    stableChar (lowerChar (substEnye d)) := by
  by_cases h : c < 1024
  · exact stable_small c h d hd hcomb
  · rw [nfkdChar_of_large c (by omega)] at hd
    rw [List.mem_singleton] at hd
    subst hd
    have h4 : stableChar d := stableChar_of_large d (by omega)
    rw [h4.2.2.1, h4.2.2.2]
    exact h4

theorem mem_normalizar_stable (s : List Nat) :
    ∀ e ∈ normalizar_texto s, stableChar e := by
  intro e he
  unfold normalizar_texto at he
  rw [List.mem_map] at he
  obtain ⟨d1, hd1, rfl⟩ := he
  rw [List.mem_map] at hd1
  obtain ⟨d, hd, rfl⟩ := hd1
  rw [List.mem_filter] at hd
  obtain ⟨hdmem, hdcomb⟩ := hd
  rw [List.mem_flatMap] at hdmem
  obtain ⟨c, _, hdc⟩ := hdmem
  exact stable_output c d hdc (by simpa using hdcomb)

theorem normalizar_id_of_stable (l : List Nat) (h : ∀ e ∈ l, stableChar e) :
    normalizar_texto l = l := by
  induction l with
  | nil => rfl
  | cons c cs ih =>
    have hc := h c (List.mem_cons_self c cs)
    have hcs := ih (fun e he => h e (List.mem_cons_of_mem c he))
    unfold normalizar_texto at hcs ⊢
    rw [List.flatMap_cons, hc.1]
    have : List.filter (fun c => !combining c) ([c] ++ cs.flatMap nfkdChar)
        = c :: List.filter (fun c => !combining c) (cs.flatMap nfkdChar) := by
      rw [List.filter_append]
      simp [hc.2.1]
    rw [this]
    simp only [List.map_cons, hc.2.2.1, hc.2.2.2]
    rw [hcs]

/-- C8: `normalizar_texto` is idempotent — normalising twice equals
normalising once, for every input string. -/
theorem C8_normalize_idempotent (s : List Nat) :
    normalizar_texto (normalizar_texto s) = normalizar_texto s :=
  normalizar_id_of_stable (normalizar_texto s) (mem_normalizar_stable s)

theorem aliasMsgs_distinct (a t : List Nat) : aliasSaveFailMsg ≠ aliasSavedMsg a t := by
  intro h
  have h1 : aliasSaveFailMsg.head? = (aliasSavedMsg a t).head? := by rw [h]
  have h2 : aliasSaveFailMsg.head? = some 10060 := rfl
  have h3 : (aliasSavedMsg a t).head? = some 9989 := rfl
  rw [h2, h3] at h1
  simp at h1

theorem dictLookup_dictInsert (m : List (List Nat × List Nat)) (k v : List Nat) :
    dictLookup (dictInsert m k v) k = some v := by
  induction m with
  | nil => simp [dictInsert, dictLookup, List.find?]
  | cons p rest ih =>
    by_cases h : p.1 = k
    · simp [dictInsert, h, dictLookup, List.find?]
    · unfold dictInsert
      rw [if_neg h]
      unfold dictLookup
      rw [List.find?_cons_of_neg _ (by simpa using h)]
      exact ih

/-- C7: when the confirmed alias update's file write fails, the admin sees
the persistence-failure message (distinct from every success message), and
the in-memory alias table is not rolled back: it still maps the normalized
alias to the target, so a subsequent resolution observes the unpersisted
entry. -/
theorem C7_persistFailure_no_rollback (st : AdminState) (aliasName targetName : List Nat) :
    let normAlias := normalizar_texto aliasName
    let normTarget := adminNormalizeTarget targetName
    let r := confirmAlias st aliasName targetName normAlias normTarget .ioError
    r.2 = aliasSaveFailMsg ∧
    (∀ a t : List Nat, r.2 ≠ aliasSavedMsg a t) ∧
    dictLookup r.1.aliases normAlias = some normTarget ∧
    resolveAlias r.1.aliases normAlias = normTarget := by
  intro normAlias normTarget r
  have hlook : dictLookup r.1.aliases normAlias = some normTarget :=
    dictLookup_dictInsert st.aliases normAlias normTarget
  refine ⟨rfl, fun a t => aliasMsgs_distinct a t, hlook, ?_⟩
  unfold resolveAlias
  rw [hlook]
  rfl

theorem lowerChar_not_upper (d : Nat) : ¬(65 ≤ lowerChar d ∧ lowerChar d ≤ 90) := by
  unfold lowerChar
  split <;> omega

theorem lowerChar_lt_128 (d : Nat) (h : d < 128) : lowerChar d < 128 := by
  unfold lowerChar
  split <;> omega

theorem stableChar_of_lower_ascii (e : Nat) (he : e < 128)
    (hu : ¬(65 ≤ e ∧ e ≤ 90)) : stableChar e := by
  refine ⟨?_, ?_, ?_, ?_⟩
  · unfold nfkdChar
    repeat rw [if_neg (by omega)]
  · simp only [combining, decide_eq_false_iff_not]
    omega
  · unfold substEnye
    repeat rw [if_neg (by omega)]
  · unfold lowerChar
    rw [if_neg hu]

theorem mem_pyStrip (s : List Nat) (e : Nat) (he : e ∈ pyStrip s) : e ∈ s := by
  unfold pyStrip at he
  rw [List.mem_reverse] at he
  have h1 := List.dropWhile_sublist (l := (s.dropWhile isPySpace).reverse) (p := isPySpace)
  have h2 := h1.mem he
  rw [List.mem_reverse] at h2
  exact (List.dropWhile_sublist (l := s) (p := isPySpace)).mem h2

/-- C5 (amended): the admin-added corpus entry `target.lower().strip()` is
a fixed point of `normalizar_texto` when the target is plain ASCII; the
counterexample shows it need not be in general, because the corpus side is
never diacritic-normalized. -/
theorem C5_ascii_corpus_entry_normal_fixed (t : List Nat)
    (hascii : ∀ c ∈ t, c < 128) :
    normalizar_texto (adminNormalizeTarget t) = adminNormalizeTarget t := by
  apply normalizar_id_of_stable
  intro e he
  unfold adminNormalizeTarget at he
  have hmem : e ∈ pyLower t := mem_pyStrip _ e he
  unfold pyLower at hmem
  rw [List.mem_map] at hmem
  obtain ⟨d, hd, rfl⟩ := hmem
  exact stableChar_of_lower_ascii _ (lowerChar_lt_128 d (hascii d hd)) (lowerChar_not_upper d)

/-- Witness for `C5_ascii_corpus_entry_normal_fixed` at the target
`"Ketamine"`. -/
theorem C5_ascii_corpus_entry_normal_fixed_witness :
    (∀ c ∈ strCodes ("Ketamine"), c < 128) ∧
    normalizar_texto (adminNormalizeTarget (strCodes ("Ketamine"))) =
      adminNormalizeTarget (strCodes ("Ketamine")) :=
  ⟨by decide, C5_ascii_corpus_entry_normal_fixed (strCodes ("Ketamine")) (by decide)⟩

/-- C5 counterexample: after an admin confirms the alias
`"mejico" -> "México"` (and the write succeeds), the suggestion corpus
`VALID_SUBSTANCES` contains the entry `"méxico"`, which is not a fixed
point of `normalizar_texto` — the corpus side of the fuzzy match is not
normalized the way the user's query is. -/
theorem C5_counterexample :
    let st : AdminState := ⟨[], []⟩
    let target := strCodes ("México")
    let r := confirmAlias st (strCodes ("mejico")) target
      (normalizar_texto (strCodes ("mejico"))) (adminNormalizeTarget target) .ok
    r.1.validSubstances = [adminNormalizeTarget target] ∧
    normalizar_texto (adminNormalizeTarget target) ≠ adminNormalizeTarget target := by
  refine ⟨by decide, by decide⟩

theorem buildPagesLoop_bound (items : List (List Nat)) :
    ∀ (cur : List Nat) (acc : List (List Nat)),
      (∀ i ∈ items, i.length ≤ 3999) → cur.length ≤ 4000 →
      (∀ p ∈ acc, p.length ≤ 4000) →
      ∀ page ∈ buildPagesLoop items cur acc, page.length ≤ 4000 := by
  induction items with
  | nil =>
    intro cur acc _ hcur hacc page hp
    unfold buildPagesLoop at hp
    split at hp
    · exact hacc page hp
    · rw [List.mem_append] at hp
      rcases hp with hp | hp
      · exact hacc page hp
      · rw [List.mem_singleton] at hp
        subst hp
        exact hcur
  | cons item rest ih =>
    intro cur acc hitems hcur hacc page hp
    have hitem : item.length ≤ 3999 := hitems item (List.mem_cons_self item rest)
    have hrest : ∀ i ∈ rest, i.length ≤ 3999 :=
      fun i hi => hitems i (List.mem_cons_of_mem item hi)
    unfold buildPagesLoop at hp
    split at hp
    · refine ih (item ++ [10]) (acc ++ [cur]) hrest ?_ ?_ page hp
      · simp only [List.length_append, List.length_singleton]
        omega
      · intro p hm
        rw [List.mem_append] at hm
        rcases hm with hm | hm
        · exact hacc p hm
        · rw [List.mem_singleton] at hm
          subst hm
          exact hcur
    · next hcond =>
      refine ih (cur ++ item ++ [10]) acc hrest ?_ hacc page hp
      simp only [List.length_append, List.length_singleton]
      omega

/-- C9 (amended): every `/aliases` page body stays within the
4000-character ceiling provided every rendered line is at most 3999
characters (line plus newline must fit the budget); the counterexample
shows a single longer line overflows its page. -/
theorem C9_pages_bounded (table : List (List Nat × List Nat))
    (h : ∀ p ∈ table, (aliasLine p.1 p.2).length ≤ 3999) :
    ∀ page ∈ aliasPages table, page.length ≤ 4000 := by
  unfold aliasPages
  refine buildPagesLoop_bound _ [] [] ?_ (by simp) (by simp)
  intro i hi
  rw [List.mem_map] at hi
  obtain ⟨p, hp, rfl⟩ := hi
  exact h p hp

/-- Witness for `C9_pages_bounded` on a two-entry table. -/
theorem C9_pages_bounded_witness :
    (∀ p ∈ [(strCodes ("keta"), strCodes ("ketamine")),
            (strCodes ("mdma"), strCodes ("mdma"))],
        (aliasLine p.1 p.2).length ≤ 3999) ∧
    (∀ page ∈ aliasPages [(strCodes ("keta"), strCodes ("ketamine")),
            (strCodes ("mdma"), strCodes ("mdma"))], page.length ≤ 4000) :=
  ⟨by decide, C9_pages_bounded _ (by decide)⟩

/-- C9 counterexample: a table whose single entry renders to a
4009-character line produces the page bodies `["", line + newline]` — an
empty first page and a second page of 4010 characters, exceeding the
4000-character ceiling. -/
theorem C9_counterexample_aux (a t : List Nat) (ha : a.length = 4000) (ht : t.length = 1) :
    (aliasPages [(a, t)]).map List.length = [0, 4010] := by
  have h1 : (strCodes ("`")).length = 1 := rfl
  have h6 : (strCodes ("` -> `")).length = 6 := rfl
  have hlen : (aliasLine a t).length = 4009 := by
    simp only [aliasLine, List.length_append, h1, h6, ha, ht]
  unfold aliasPages
  rw [List.map_cons, List.map_nil]
  unfold buildPagesLoop
  rw [if_pos (by simp only [List.length_nil, hlen]; omega)]
  unfold buildPagesLoop
  rw [if_neg (by simp)]
  simp [hlen]

theorem C9_counterexample :
    (aliasPages [(List.replicate 4000 97, [98])]).map List.length = [0, 4010] ∧
    ∃ page ∈ aliasPages [(List.replicate 4000 97, [98])], 4000 < page.length := by
  have hmap := C9_counterexample_aux (List.replicate 4000 97) [98]
    (List.length_replicate 4000 97) rfl
  refine ⟨hmap, ?_⟩
  have hmem : 4010 ∈ (aliasPages [(List.replicate 4000 97, [98])]).map List.length := by
    rw [hmap]
    simp
  rw [List.mem_map] at hmem
  obtain ⟨page, hpage, hlen⟩ := hmem
  exact ⟨page, hpage, by omega⟩

theorem addField_footer (e : DEmbed) (n v : List Nat) (b : Bool) :
    (addField e n v b).footer = e.footer := rfl

theorem addField_title (e : DEmbed) (n v : List Nat) (b : Bool) :
    (addField e n v b).title = e.title := rfl

theorem safe_add_field_footer (e : DEmbed) (n v : List Nat) (b : Bool) :
    (safe_add_field e n v b).footer = e.footer := by
  simp only [safe_add_field]
  split <;> rfl

theorem safe_add_field_title (e : DEmbed) (n v : List Nat) (b : Bool) :
    (safe_add_field e n v b).title = e.title := by
  simp only [safe_add_field]
  split <;> rfl

theorem safe_add_field_fields (e : DEmbed) (n v : List Nat) (b : Bool) :
    (safe_add_field e n v b).fields =
      e.fields ++ (safe_add_field ⟨[], [], none⟩ n v b).fields := by
  simp only [safe_add_field]
  split <;> simp

theorem doseStage_fields (roa : Roa) (e : DEmbed) :
    (doseStage roa e).fields = e.fields ++ (doseStage roa ⟨[], [], none⟩).fields := by
  simp only [doseStage]
  split <;> simp [addField]

theorem durStage_fields (roa : Roa) (e : DEmbed) :
    (durStage roa e).fields = e.fields ++ (durStage roa ⟨[], [], none⟩).fields := by
  simp only [durStage]
  split <;> simp [addField]

theorem bioStage_fields (roa : Roa) (e : DEmbed) :
    (bioStage roa e).fields = e.fields ++ (bioStage roa ⟨[], [], none⟩).fields := by
  simp only [bioStage]
  split
  · split
    · rw [safe_add_field_fields]
    · simp
  · simp

theorem doseStage_title (roa : Roa) (e : DEmbed) : (doseStage roa e).title = e.title := by
  simp only [doseStage]
  split <;> rfl

theorem durStage_title (roa : Roa) (e : DEmbed) : (durStage roa e).title = e.title := by
  simp only [durStage]
  split <;> rfl

theorem bioStage_title (roa : Roa) (e : DEmbed) : (bioStage roa e).title = e.title := by
  simp only [bioStage]
  split
  · split
    · rw [safe_add_field_title]
    · rfl
  · rfl

theorem roaDetailOps_title (roa : Roa) (e : DEmbed) : (roaDetailOps roa e).title = e.title := by
  unfold roaDetailOps
  rw [bioStage_title, durStage_title, doseStage_title]

theorem roaDetailOps_fields (roa : Roa) (e : DEmbed) :
    (roaDetailOps roa e).fields = e.fields ++ roaDetailFields roa := by
  unfold roaDetailFields roaDetailOps
  rw [bioStage_fields, durStage_fields, doseStage_fields]
  rw [bioStage_fields roa (durStage roa (doseStage roa ⟨[], [], none⟩)),
    durStage_fields roa (doseStage roa ⟨[], [], none⟩)]
  simp [List.append_assoc]

/-- C6: for every record and in-range index `i`, the rendered view is the
one for the `i`-th route — footer `"ROA i+1 de n"` (the spec's
`"ROA i+1 of n"` gloss), title naming route `i`, detail fields drawn from
route `i` — and every navigation action for target `j` re-renders the
view for route `j`; `ROAView` carries one button per route, the `j`-th
bearing index `j`. -/
theorem C6_roa_paging (info : Substance) (i : Nat) (h : i < info.roas.length) :
    (generar_embed_por_roa info i).footer =
      some (strCodes ("ROA ") ++ natStr (i + 1) ++ strCodes (" de ") ++
        natStr info.roas.length) ∧
    (generar_embed_por_roa info i).title =
      strCodes ("💡 ") ++ getNameD info ++ strCodes (" - ") ++
        roaDisplayName ((info.roas.get ⟨i, h⟩).name.getD (strCodes ("Desconocido"))) ∧
    (generar_embed_por_roa info i).fields =
      (crear_embed_base info).fields ++ roaDetailFields (info.roas.get ⟨i, h⟩) ∧
    (∀ j : Nat, roaButtonCallback info j = generar_embed_por_roa info j) ∧
    (roaViewButtons info i).length = info.roas.length ∧
    (∀ j (hj : j < (roaViewButtons info i).length),
      ((roaViewButtons info i).get ⟨j, hj⟩).idx = j) := by
  have hne : ¬(info.roas.length ≤ i) := by omega
  refine ⟨?_, ?_, ?_, fun j => rfl, ?_, ?_⟩
  · simp only [generar_embed_por_roa, dif_neg hne]
  · simp only [generar_embed_por_roa, dif_neg hne]
    rw [roaDetailOps_title]
  · simp only [generar_embed_por_roa, dif_neg hne]
    rw [roaDetailOps_fields]
  · simp [roaViewButtons]
  · intro j hj
    simp [roaViewButtons, List.get_eq_getElem, List.getElem_map, List.getElem_enum]

/-- Witness for `C6_roa_paging`: navigating the three-route sample record
to index 1 and then index 2 renders the smoked and then the rectal route,
with footers `"ROA 2 de 3"` and `"ROA 3 de 3"`. -/
theorem C6_roa_paging_witness :
    1 < sampleSubstance.roas.length ∧
    (generar_embed_por_roa sampleSubstance 1).footer = some (strCodes ("ROA 2 de 3")) ∧
    (generar_embed_por_roa sampleSubstance 2).footer = some (strCodes ("ROA 3 de 3")) ∧
    (generar_embed_por_roa sampleSubstance 1).title = strCodes ("💡 Ketamine - 🚬💨 Smoked") ∧
    (generar_embed_por_roa sampleSubstance 2).title = strCodes ("💡 Ketamine - 🎯 💩 Rectal") := by
  refine ⟨by decide, ?_, ?_, ?_, ?_⟩
  · rw [(C6_roa_paging sampleSubstance 1 (by decide)).1]
    decide
  · rw [(C6_roa_paging sampleSubstance 2 (by decide)).1]
    decide
  · rw [(C6_roa_paging sampleSubstance 1 (by decide)).2.1]
    decide
  · rw [(C6_roa_paging sampleSubstance 2 (by decide)).2.1]
    decide

theorem crear_embed_base_footer (info : Substance) : (crear_embed_base info).footer = none := by
  simp only [crear_embed_base]
  split <;> split <;> simp [safe_add_field_footer]

theorem mem_safe_add_field (e : DEmbed) (n v : List Nat) (b : Bool) (f : EmbedField)
    (hf : f ∈ (safe_add_field e n v b).fields) : f ∈ e.fields ∨ f.name = n := by
  simp only [safe_add_field] at hf
  split at hf
  · exact Or.inl hf
  · rw [List.mem_append] at hf
    rcases hf with hf | hf
    · exact Or.inl hf
    · rw [List.mem_singleton] at hf
      subst hf
      exact Or.inr rfl

theorem crear_embed_base_field_names (info : Substance) :
    ∀ f ∈ (crear_embed_base info).fields,
      f.name = strCodes ("🔹 También llamado") ∨ f.name = strCodes ("🎯 Efectos") := by
  intro f hf
  simp only [crear_embed_base] at hf
  split at hf
  · split at hf
    · simp at hf
    · rcases mem_safe_add_field _ _ _ _ _ hf with h | h
      · simp at h
      · exact Or.inl h
  · rcases mem_safe_add_field _ _ _ _ _ hf with h | h
    · split at h
      · simp at h
      · rcases mem_safe_add_field _ _ _ _ _ h with h2 | h2
        · simp at h2
        · exact Or.inl h2
    · exact Or.inr h

/-- C10: the per-route view builder is total in its index: for any index
at or past the end of the route list — in particular index 0 on a record
with no routes, which the `/info` pipeline still renders — it returns the
base view unchanged: no footer and no fields besides the common-names and
effects ones. -/
theorem C10_view_total_out_of_range (info : Substance) (i : Nat)
    (h : info.roas.length ≤ i) :
    generar_embed_por_roa info i = crear_embed_base info ∧
    (generar_embed_por_roa info i).footer = none ∧
    (∀ f ∈ (generar_embed_por_roa info i).fields,
      f.name = strCodes ("🔹 También llamado") ∨ f.name = strCodes ("🎯 Efectos")) ∧
    (info.roas = [] → infoRenderInitial info = crear_embed_base info) := by
  have h1 : generar_embed_por_roa info i = crear_embed_base info := by
    simp only [generar_embed_por_roa, dif_pos h]
  refine ⟨h1, ?_, ?_, ?_⟩
  · rw [h1]
    exact crear_embed_base_footer info
  · rw [h1]
    exact crear_embed_base_field_names info
  · intro hz
    unfold infoRenderInitial
    simp only [generar_embed_por_roa, dif_pos (by rw [hz]; simp : info.roas.length ≤ 0)]

/-- Witness for `C10_view_total_out_of_range` on the route-less sample
record at index 0. -/
theorem C10_view_total_out_of_range_witness :
    sampleNoRoas.roas.length ≤ 0 ∧
    generar_embed_por_roa sampleNoRoas 0 = crear_embed_base sampleNoRoas ∧
    (generar_embed_por_roa sampleNoRoas 0).footer = none :=
  ⟨by decide, (C10_view_total_out_of_range sampleNoRoas 0 (by decide)).1,
    (C10_view_total_out_of_range sampleNoRoas 0 (by decide)).2.1⟩

/-- C1 counterexample: a 201 response — a 2xx transport success — with a
perfectly well-formed envelope is rejected by the code (`resp.status !=
200`), although the spec's failure condition does not hold of it. -/
theorem C1_counterexample :
    queryFailed (runQuery (.http 201 (.json ⟨[], some []⟩))) = true ∧
    specQueryFails (.http 201 (.json ⟨[], some []⟩)) = false := by
  exact ⟨rfl, rfl⟩

/-- C1 (amended): the primary query fails exactly when the transport
status is not 200 (the only status the client accepts — not "any 2xx"),
the body is unparsable or empty, a connection error occurs, or the parsed
envelope carries a non-empty error list or lacks a truthy data field;
a well-formed 200 response with an empty substances list is a zero-result
success that triggers the fallback path and is never reported as an API
failure. -/
theorem C1_query_failure_conditions :
    (runQuery .connError = .connectionError) ∧
    (∀ (s : Nat) (b : Body), s ≠ 200 → runQuery (.http s b) = .statusError s) ∧
    (runQuery (.http 200 .malformed) = .parseError) ∧
    (runQuery (.http 200 .emptyText) = .envelopeError) ∧
    (∀ e : Envelope, (!e.errors.isEmpty || e.data.isNone) = true →
      runQuery (.http 200 (.json e)) = .envelopeError) ∧
    (∀ (e : Envelope) (subs : List Substance), e.errors = [] → e.data = some subs →
      runQuery (.http 200 (.json e)) = .success subs) ∧
    (∀ (original : List Nat) (corpus : List (List Nat)) (env : PipelineEnv),
      runQuery env.primary = .success [] →
      (infoPipeline original corpus env).translationCalled = true ∧
      isApiFailureReply (infoPipeline original corpus env).reply = false) := by
  refine ⟨rfl, ?_, rfl, rfl, ?_, ?_, ?_⟩
  · intro s b h
    simp [runQuery, h]
  · intro e h
    simp [runQuery, h]
  · intro e subs h1 h2
    simp [runQuery, h1, h2]
  · intro orig corpus env h
    cases hf : (fallbackRun orig env.translation env.retry).1 with
    | nil => simp [infoPipeline, h, hf, isApiFailureReply]
    | cons s rest => simp [infoPipeline, h, hf, isApiFailureReply]

/-- Witness for `C1_query_failure_conditions` at concrete responses. -/
theorem C1_query_failure_conditions_witness :
    runQuery (.http 500 .emptyText) = .statusError 500 ∧
    runQuery (.http 200 (.json ⟨[strCodes ("boom")], some []⟩)) = .envelopeError ∧
    runQuery (.http 200 (.json ⟨[], some []⟩)) = .success [] ∧
    (infoPipeline [] [] ⟨.http 200 (.json ⟨[], some []⟩), .raised, .connError⟩).translationCalled
        = true ∧
    isApiFailureReply
      (infoPipeline [] [] ⟨.http 200 (.json ⟨[], some []⟩), .raised, .connError⟩).reply
        = false := by
  have h7 := C1_query_failure_conditions.2.2.2.2.2.2 [] []
    ⟨.http 200 (.json ⟨[], some []⟩), .raised, .connError⟩ (by decide)
  exact ⟨C1_query_failure_conditions.2.1 500 .emptyText (by decide),
    C1_query_failure_conditions.2.2.2.2.1 ⟨[strCodes ("boom")], some []⟩ (by decide),
    C1_query_failure_conditions.2.2.2.2.2.1 ⟨[], some []⟩ [] rfl rfl,
    h7.1, h7.2⟩

/-- C2: whenever the primary query fails, the pipeline replies with that
failure kind's API-failure message and aborts: the translator is not
invoked, no retry POST is issued, no suggestions are computed, and the
not-found reply is never produced. -/
theorem C2_failure_aborts_pipeline (original : List Nat) (corpus : List (List Nat))
    (env : PipelineEnv) (h : queryFailed (runQuery env.primary) = true) :
    apiFailureReply (runQuery env.primary) = some (infoPipeline original corpus env).reply ∧
    (infoPipeline original corpus env).translationCalled = false ∧
    (infoPipeline original corpus env).retryIssued = false ∧
    (infoPipeline original corpus env).suggestionsComputed = false ∧
    (∀ sugg, (infoPipeline original corpus env).reply ≠ .notFound sugg) := by
  cases hq : runQuery env.primary with
  | statusError s => simp [infoPipeline, hq, apiFailureReply]
  | envelopeError => simp [infoPipeline, hq, apiFailureReply]
  | parseError => simp [infoPipeline, hq, apiFailureReply]
  | connectionError => simp [infoPipeline, hq, apiFailureReply]
  | success subs =>
    rw [hq] at h
    simp [queryFailed] at h

/-- Witness for `C2_failure_aborts_pipeline` at a 500 response. -/
theorem C2_failure_aborts_pipeline_witness :
    queryFailed (runQuery (.http 500 .emptyText)) = true ∧
    (infoPipeline [] [] ⟨.http 500 .emptyText, .raised, .connError⟩).translationCalled = false ∧
    (infoPipeline [] [] ⟨.http 500 .emptyText, .raised, .connError⟩).retryIssued = false ∧
    (infoPipeline [] [] ⟨.http 500 .emptyText, .raised, .connError⟩).suggestionsComputed
      = false := by
  have h := C2_failure_aborts_pipeline [] [] ⟨.http 500 .emptyText, .raised, .connError⟩
    (by decide)
  exact ⟨by decide, h.2.1, h.2.2.1, h.2.2.2.1⟩

/-- C3 counterexample: a retried query answered 200 with an envelope that
carries both a non-empty error list and a data field contributes that
envelope's substances — not the empty list the claim requires for an
error-bearing envelope — and the pipeline renders the record. -/
theorem C3_counterexample :
    fallbackSubstances (strCodes ("ketamina")) (.value (some (strCodes ("Ketamine"))))
      (.http 200 (.json ⟨[strCodes ("boom")], some [sampleSubstance]⟩)) = [sampleSubstance] ∧
    (infoPipeline (strCodes ("ketamina")) []
      ⟨.http 200 (.json ⟨[], some []⟩), .value (some (strCodes ("Ketamine"))),
        .http 200 (.json ⟨[strCodes ("boom")], some [sampleSubstance]⟩)⟩).reply
      = .view sampleSubstance := by
  exact ⟨by decide, by decide⟩

/-- C3 (amended): the fallback never propagates an error — a raised or
falsy or unchanged translation contributes nothing without a retry; a
retried query that hits a connection error, a non-200 status, an
unparsable or empty body, or a data-less envelope contributes the empty
list; but a retried 200 envelope with a truthy data field contributes its
substances even when an error list is present (the retry path never
checks `errors`); and whenever the contribution is empty the pipeline
proceeds exactly as a zero-result fallback: not-found with
suggestions. -/
theorem C3_fallback_contributions :
    (∀ orig retry, fallbackRun orig .raised retry = ([], false)) ∧
    (∀ orig retry, fallbackRun orig (.value none) retry = ([], false)) ∧
    (∀ orig t retry, pyLower t = orig → fallbackRun orig (.value (some t)) retry = ([], false)) ∧
    (∀ orig t, pyLower t ≠ orig →
      fallbackRun orig (.value (some t)) .connError = ([], true)) ∧
    (∀ orig t s b, pyLower t ≠ orig → s ≠ 200 →
      fallbackRun orig (.value (some t)) (.http s b) = ([], true)) ∧
    (∀ orig t, pyLower t ≠ orig →
      fallbackRun orig (.value (some t)) (.http 200 .malformed) = ([], true)) ∧
    (∀ orig t, pyLower t ≠ orig →
      fallbackRun orig (.value (some t)) (.http 200 .emptyText) = ([], true)) ∧
    (∀ orig t errs, pyLower t ≠ orig →
      fallbackRun orig (.value (some t)) (.http 200 (.json ⟨errs, none⟩)) = ([], true)) ∧
    (∀ orig t errs subs, pyLower t ≠ orig →
      fallbackRun orig (.value (some t)) (.http 200 (.json ⟨errs, some subs⟩)) = (subs, true)) ∧
    (∀ orig corpus env, runQuery env.primary = .success [] →
      fallbackSubstances orig env.translation env.retry = [] →
      (infoPipeline orig corpus env).reply =
        .notFound (suggestionsFor (normalizar_texto orig) corpus)) := by
  refine ⟨fun _ _ => rfl, fun _ _ => rfl, ?_, ?_, ?_, ?_, ?_, ?_, ?_, ?_⟩
  · intro orig t retry h
    simp only [fallbackRun]
    rw [if_neg (by simp [h])]
  · intro orig t h
    simp only [fallbackRun]
    rw [if_pos h]
  · intro orig t s b h h2
    simp only [fallbackRun]
    rw [if_pos h]
    simp [h2]
  · intro orig t h
    simp only [fallbackRun]
    rw [if_pos h]
    simp
  · intro orig t h
    simp only [fallbackRun]
    rw [if_pos h]
    simp
  · intro orig t errs h
    simp only [fallbackRun]
    rw [if_pos h]
    simp
  · intro orig t errs subs h
    simp only [fallbackRun]
    rw [if_pos h]
    simp
  · intro orig corpus env h1 h2
    unfold fallbackSubstances at h2
    simp [infoPipeline, h1, h2]

/-- Witness for `C3_fallback_contributions` at concrete inputs. -/
theorem C3_fallback_contributions_witness :
    fallbackRun (strCodes ("lsd")) (.value (some (strCodes ("LSD")))) .connError
      = ([], false) ∧
    fallbackRun (strCodes ("setas")) (.value (some (strCodes ("mushrooms"))))
      (.http 500 .emptyText) = ([], true) ∧
    fallbackRun (strCodes ("setas")) (.value (some (strCodes ("mushrooms"))))
      (.http 200 (.json ⟨[strCodes ("oops")], some [sampleNoRoas]⟩)) = ([sampleNoRoas], true) ∧
    (infoPipeline (strCodes ("qwxyz")) []
      ⟨.http 200 (.json ⟨[], some []⟩), .value (some (strCodes ("qwxyz"))), .connError⟩).reply
      = .notFound (suggestionsFor (normalizar_texto (strCodes ("qwxyz"))) []) := by
  refine ⟨C3_fallback_contributions.2.2.1 _ _ _ (by decide),
    C3_fallback_contributions.2.2.2.2.1 _ _ 500 _ (by decide) (by decide),
    C3_fallback_contributions.2.2.2.2.2.2.2.2.1 _ _ _ _ (by decide),
    C3_fallback_contributions.2.2.2.2.2.2.2.2.2 _ _
      ⟨.http 200 (.json ⟨[], some []⟩), .value (some (strCodes ("qwxyz"))), .connError⟩
      (by decide) (by decide)⟩

theorem strLt_irrefl (x : List Nat) : strLt x x = false := by
  induction x with
  | nil => rfl
  | cons c cs ih =>
    unfold strLt
    rw [if_neg (lt_irrefl c), if_neg (lt_irrefl c)]
    exact ih

theorem strLt_trichotomy (x y : List Nat) : strLt x y = true ∨ strLt y x = true ∨ x = y := by
  induction x generalizing y with
  | nil =>
    cases y with
    | nil => exact Or.inr (Or.inr rfl)
    | cons d ds => exact Or.inl rfl
  | cons c cs ih =>
    cases y with
    | nil => exact Or.inr (Or.inl rfl)
    | cons d ds =>
      rcases Nat.lt_trichotomy c d with h | h | h
      · left
        unfold strLt
        rw [if_pos h]
      · subst h
        rcases ih ds with h1 | h1 | h1
        · left
          unfold strLt
          rw [if_neg (lt_irrefl c), if_neg (lt_irrefl c)]
          exact h1
        · right; left
          unfold strLt
          rw [if_neg (lt_irrefl c), if_neg (lt_irrefl c)]
          exact h1
        · right; right
          rw [h1]
      · right; left
        unfold strLt
        rw [if_pos h]

theorem strLt_trans (x y z : List Nat) (h1 : strLt x y = true) (h2 : strLt y z = true) :
    strLt x z = true := by
  induction x generalizing y z with
  | nil =>
    cases z with
    | nil =>
      cases y with
      | nil => simp [strLt] at h2
      | cons d ds => simp [strLt] at h2
    | cons e es => rfl
  | cons c cs ih =>
    cases y with
    | nil => simp [strLt] at h1
    | cons d ds =>
      cases z with
      | nil => simp [strLt] at h2
      | cons e es =>
        unfold strLt at h1 h2 ⊢
        by_cases hcd : c < d
        · by_cases hde : d < e
          · rw [if_pos (by omega)]
          · by_cases hed : e < d
            · rw [if_neg hde, if_pos hed] at h2
              cases h2
            · have hde2 : d = e := by omega
              subst hde2
              rw [if_pos hcd]
        · by_cases hdc : d < c
          · rw [if_neg hcd, if_pos hdc] at h1
            cases h1
          · have hcd2 : c = d := by omega
            subst hcd2
            rw [if_neg hcd, if_neg hcd] at h1
            by_cases hde : c < e
            · rw [if_pos hde]
            · by_cases hed : e < c
              · rw [if_neg hde, if_pos hed] at h2
                cases h2
              · have hde2 : c = e := by omega
                subst hde2
                rw [if_neg hde, if_neg hde] at h2 ⊢
                exact ih ds es h1 h2

theorem strLt_asymm (x y : List Nat) (h : strLt x y = true) : strLt y x = false := by
  by_contra hc
  rw [Bool.not_eq_false] at hc
  have := strLt_trans x y x h hc
  rw [strLt_irrefl] at this
  cases this

theorem strLt_neg_trans (a b c : List Nat) (h1 : strLt a b = false)
    (h2 : strLt b c = false) : strLt a c = false := by
  by_contra hc
  rw [Bool.not_eq_false] at hc
  rcases strLt_trichotomy a b with h | h | h
  · rw [h] at h1
    cases h1
  · rw [strLt_trans b a c h hc] at h2
    cases h2
  · subst h
    rw [hc] at h2
    cases h2

theorem pairLt_asymm (p q : ℚ × List Nat) (h : pairLt p q = true) : pairLt q p = false := by
  unfold pairLt at h ⊢
  rcases lt_trichotomy p.1 q.1 with h1 | h1 | h1
  · rw [if_neg (by linarith), if_pos h1]
  · rw [if_neg (by linarith), if_neg (by linarith)] at h ⊢
    exact strLt_asymm _ _ h
  · rw [if_neg (by linarith), if_pos h1] at h
    cases h

theorem pairLt_neg_trans (p q r : ℚ × List Nat) (h1 : pairLt p q = false)
    (h2 : pairLt q r = false) : pairLt p r = false := by
  unfold pairLt at h1 h2 ⊢
  rcases lt_trichotomy p.1 q.1 with hpq | hpq | hpq
  · rw [if_pos hpq] at h1
    cases h1
  · rcases lt_trichotomy q.1 r.1 with hqr | hqr | hqr
    · rw [if_pos hqr] at h2
      cases h2
    · rw [if_neg (by linarith), if_neg (by linarith)] at h1 h2 ⊢
      exact strLt_neg_trans _ _ _ h1 h2
    · rw [if_neg (by linarith), if_pos (by linarith)]
  · rcases lt_trichotomy q.1 r.1 with hqr | hqr | hqr
    · rw [if_pos hqr] at h2
      cases h2
    · rw [if_neg (by linarith), if_pos (by linarith)]
    · rw [if_neg (by linarith), if_pos (by linarith)]

theorem insertDesc_perm (p : ℚ × List Nat) (l : List (ℚ × List Nat)) :
    (insertDesc p l).Perm (p :: l) := by
  induction l with
  | nil => exact List.Perm.refl _
  | cons q qs ih =>
    unfold insertDesc
    split
    · exact ((ih.cons q).trans (List.Perm.swap p q qs))
    · exact List.Perm.refl _

theorem sortDesc_perm (l : List (ℚ × List Nat)) : (sortDesc l).Perm l := by
  induction l with
  | nil => exact List.Perm.refl _
  | cons p ps ih => exact (insertDesc_perm p (sortDesc ps)).trans (ih.cons p)

theorem insertDesc_pairwise (p : ℚ × List Nat) (l : List (ℚ × List Nat))
    (hl : l.Pairwise (fun u v => pairLt u v = false)) :
    (insertDesc p l).Pairwise (fun u v => pairLt u v = false) := by
  induction l with
  | nil => simp [insertDesc]
  | cons q qs ih =>
    rcases List.pairwise_cons.mp hl with ⟨hq, hqs⟩
    unfold insertDesc
    split
    · next hlt =>
      rw [List.pairwise_cons]
      refine ⟨?_, ih hqs⟩
      intro x hx
      have hx3 := ((insertDesc_perm p qs).mem_iff).mp hx
      rw [List.mem_cons] at hx3
      rcases hx3 with rfl | hx2
      · exact pairLt_asymm _ _ hlt
      · exact hq x hx2
    · next hlt =>
      rw [Bool.not_eq_true] at hlt
      rw [List.pairwise_cons]
      refine ⟨?_, hl⟩
      intro x hx
      rcases List.mem_cons.mp hx with rfl | hx2
      · exact hlt
      · exact pairLt_neg_trans p q x hlt (hq x hx2)

theorem sortDesc_pairwise (l : List (ℚ × List Nat)) :
    (sortDesc l).Pairwise (fun u v => pairLt u v = false) := by
  induction l with
  | nil => simp [sortDesc]
  | cons p ps ih => exact insertDesc_pairwise p (sortDesc ps) ih

theorem pairLt_false_elim (p q : ℚ × List Nat) (h : pairLt p q = false) :
    q.1 < p.1 ∨ (p.1 = q.1 ∧ strLt p.2 q.2 = false) := by
  unfold pairLt at h
  rcases lt_trichotomy p.1 q.1 with h1 | h1 | h1
  · rw [if_pos h1] at h
    cases h
  · rw [if_neg (by linarith), if_neg (by linarith)] at h
    exact Or.inr ⟨h1, h⟩
  · exact Or.inl h1

/-- Anything in `scoredMatches` came from the corpus, carries its own
`SequenceMatcher` ratio as score, and passed all three cutoff tests. -/
theorem mem_scoredMatches (word : List Nat) (poss : List (List Nat)) (n : Nat)
    (cutoff : ℚ) (p : ℚ × List Nat) (hp : p ∈ scoredMatches word poss n cutoff) :
    p.2 ∈ poss ∧ p.1 = smRatio p.2 word (b2jAuto word) ∧ cutoff ≤ p.1 := by
  unfold scoredMatches at hp
  have hp2 := (sortDesc_perm _).mem_iff.mp (List.take_subset n _ hp)
  rw [List.mem_filterMap] at hp2
  obtain ⟨a, ha, heq⟩ := hp2
  split at heq
  · next hcond =>
    rw [Option.some.injEq] at heq
    subst heq
    exact ⟨ha, rfl, hcond.2.2⟩
  · cases heq

/-- C4 (amended): for every normalized input and corpus,
`get_close_matches(input, corpus, 3, 0.6)` returns at most 3 names, every
returned name has `SequenceMatcher` similarity at least 3/5 to the input,
and the scored output is ordered by decreasing similarity — but
equal-similarity names are ordered by descending Python string comparison
(the tuple order `heapq.nlargest` sorts by), not by first-seen corpus
position. -/
theorem C4_suggestion_properties (word : List Nat) (poss : List (List Nat)) :
    (get_close_matches word poss 3 (3 / 5)).length ≤ 3 ∧
    (∀ x ∈ get_close_matches word poss 3 (3 / 5),
      x ∈ poss ∧ 3 / 5 ≤ smRatio x word (b2jAuto word)) ∧
    (scoredMatches word poss 3 (3 / 5)).Pairwise
      (fun p q => q.1 < p.1 ∨ (p.1 = q.1 ∧ strLt p.2 q.2 = false)) ∧
    (∀ p ∈ scoredMatches word poss 3 (3 / 5), p.1 = smRatio p.2 word (b2jAuto word)) ∧
    get_close_matches word poss 3 (3 / 5) = (scoredMatches word poss 3 (3 / 5)).map Prod.snd := by
  refine ⟨?_, ?_, ?_, ?_, rfl⟩
  · unfold get_close_matches scoredMatches
    rw [List.length_map]
    exact List.length_take_le _ _
  · intro x hx
    unfold get_close_matches at hx
    rw [List.mem_map] at hx
    obtain ⟨p, hp, rfl⟩ := hx
    have h := mem_scoredMatches word poss 3 (3 / 5) p hp
    refine ⟨h.1, ?_⟩
    rw [← h.2.1]
    exact h.2.2
  · have hpw : (scoredMatches word poss 3 (3 / 5)).Pairwise
        (fun u v => pairLt u v = false) := by
      unfold scoredMatches
      exact List.Pairwise.sublist (List.take_sublist _ _) (sortDesc_pairwise _)
    exact hpw.imp (fun h => pairLt_false_elim _ _ h)
  · intro p hp
    exact (mem_scoredMatches word poss 3 (3 / 5) p hp).2.1

/-- Concrete evaluation of the matcher on input `"abc"` against corpus
`["abd", "abe"]`: both candidates score exactly 2/3 and the scored list
comes out `[(2/3, "abe"), (2/3, "abd")]`. -/
theorem scoredMatches_abc_eval :
    scoredMatches (strCodes ("abc")) [strCodes ("abd"), strCodes ("abe")] 3 (3 / 5)
      = [(2 / 3, strCodes ("abe")), (2 / 3, strCodes ("abd"))] ∧
    smRatio (strCodes ("abd")) (strCodes ("abc")) (b2jAuto (strCodes ("abc"))) = 2 / 3 ∧
    smRatio (strCodes ("abe")) (strCodes ("abc")) (b2jAuto (strCodes ("abc"))) = 2 / 3 := by
  have hmt1 : matchTotal (strCodes ("abd")) (strCodes ("abc")) (b2jAuto (strCodes ("abc"))) = 2 := by
    decide
  have hmt2 : matchTotal (strCodes ("abe")) (strCodes ("abc")) (b2jAuto (strCodes ("abc"))) = 2 := by
    decide
  have hqm1 : quickMatchesGo (fullbcount (strCodes ("abc"))) (strCodes ("abd")) [] 0 = 2 := by
    decide
  have hqm2 : quickMatchesGo (fullbcount (strCodes ("abc"))) (strCodes ("abe")) [] 0 = 2 := by
    decide
  have hr1 : smRatio (strCodes ("abd")) (strCodes ("abc")) (b2jAuto (strCodes ("abc"))) = 2 / 3 := by
    unfold smRatio
    rw [hmt1, show (strCodes ("abd")).length = 3 from rfl, show (strCodes ("abc")).length = 3 from rfl]
    norm_num [calcRatio]
  have hr2 : smRatio (strCodes ("abe")) (strCodes ("abc")) (b2jAuto (strCodes ("abc"))) = 2 / 3 := by
    unfold smRatio
    rw [hmt2, show (strCodes ("abe")).length = 3 from rfl, show (strCodes ("abc")).length = 3 from rfl]
    norm_num [calcRatio]
  have hquick1 : smQuickRatio (strCodes ("abd")) (strCodes ("abc")) = 2 / 3 := by
    unfold smQuickRatio
    rw [hqm1, show (strCodes ("abd")).length = 3 from rfl, show (strCodes ("abc")).length = 3 from rfl]
    norm_num [calcRatio]
  have hquick2 : smQuickRatio (strCodes ("abe")) (strCodes ("abc")) = 2 / 3 := by
    unfold smQuickRatio
    rw [hqm2, show (strCodes ("abe")).length = 3 from rfl, show (strCodes ("abc")).length = 3 from rfl]
    norm_num [calcRatio]
  have hreal1 : smRealQuickRatio (strCodes ("abd")) (strCodes ("abc")) = 1 := by
    unfold smRealQuickRatio
    rw [show (strCodes ("abd")).length = 3 from rfl, show (strCodes ("abc")).length = 3 from rfl]
    norm_num [calcRatio]
  have hreal2 : smRealQuickRatio (strCodes ("abe")) (strCodes ("abc")) = 1 := by
    unfold smRealQuickRatio
    rw [show (strCodes ("abe")).length = 3 from rfl, show (strCodes ("abc")).length = 3 from rfl]
    norm_num [calcRatio]
  have hcond1 : (3 / 5 : ℚ) ≤ smRealQuickRatio (strCodes ("abd")) (strCodes ("abc")) ∧
      (3 / 5 : ℚ) ≤ smQuickRatio (strCodes ("abd")) (strCodes ("abc")) ∧
      (3 / 5 : ℚ) ≤ smRatio (strCodes ("abd")) (strCodes ("abc")) (b2jAuto (strCodes ("abc"))) := by
    rw [hreal1, hquick1, hr1]
    norm_num
  have hcond2 : (3 / 5 : ℚ) ≤ smRealQuickRatio (strCodes ("abe")) (strCodes ("abc")) ∧
      (3 / 5 : ℚ) ≤ smQuickRatio (strCodes ("abe")) (strCodes ("abc")) ∧
      (3 / 5 : ℚ) ≤ smRatio (strCodes ("abe")) (strCodes ("abc")) (b2jAuto (strCodes ("abc"))) := by
    rw [hreal2, hquick2, hr2]
    norm_num
  have hpl : pairLt (2 / 3, strCodes ("abd")) (2 / 3, strCodes ("abe")) = true := by
    unfold pairLt
    rw [if_neg (lt_irrefl _), if_neg (lt_irrefl _)]
    decide
  refine ⟨?_, hr1, hr2⟩
  unfold scoredMatches
  simp only [List.filterMap_cons, List.filterMap_nil]
  rw [if_pos hcond1, if_pos hcond2, hr1, hr2]
  simp only [sortDesc, insertDesc, hpl, if_pos]
  simp [List.take]

/-- C4 counterexample: for input `"abc"` and corpus `["abd", "abe"]`, both
candidates have the same similarity 2/3 and `"abd"` is seen first, yet
the code returns `["abe", "abd"]` — the tie is broken by descending
string order, not first-seen order. -/
theorem C4_counterexample :
    get_close_matches (strCodes ("abc")) [strCodes ("abd"), strCodes ("abe")] 3 (3 / 5)
      = [strCodes ("abe"), strCodes ("abd")] ∧
    smRatio (strCodes ("abd")) (strCodes ("abc")) (b2jAuto (strCodes ("abc")))
      = smRatio (strCodes ("abe")) (strCodes ("abc")) (b2jAuto (strCodes ("abc"))) ∧
    List.indexOf (strCodes ("abd")) [strCodes ("abd"), strCodes ("abe")] <
      List.indexOf (strCodes ("abe")) [strCodes ("abd"), strCodes ("abe")] := by
  refine ⟨?_, ?_, by decide⟩
  · unfold get_close_matches
    rw [scoredMatches_abc_eval.1]
    rfl
  · rw [scoredMatches_abc_eval.2.1, scoredMatches_abc_eval.2.2]

/-- Witness for `C4_suggestion_properties`, instantiating its membership
hypotheses at the `"abc"` example. -/
theorem C4_suggestion_properties_witness :
    strCodes ("abe") ∈
      get_close_matches (strCodes ("abc")) [strCodes ("abd"), strCodes ("abe")] 3 (3 / 5) ∧
    strCodes ("abe") ∈ [strCodes ("abd"), strCodes ("abe")] ∧
    (3 / 5 : ℚ) ≤ smRatio (strCodes ("abe")) (strCodes ("abc")) (b2jAuto (strCodes ("abc"))) ∧
    (2 / 3, strCodes ("abe")) ∈
      scoredMatches (strCodes ("abc")) [strCodes ("abd"), strCodes ("abe")] 3 (3 / 5) ∧
    (2 / 3 : ℚ) = smRatio (strCodes ("abe")) (strCodes ("abc")) (b2jAuto (strCodes ("abc"))) := by
  have hmem : strCodes ("abe") ∈
      get_close_matches (strCodes ("abc")) [strCodes ("abd"), strCodes ("abe")] 3 (3 / 5) := by
    unfold get_close_matches
    rw [scoredMatches_abc_eval.1]
    simp
  have hpmem : (2 / 3, strCodes ("abe")) ∈
      scoredMatches (strCodes ("abc")) [strCodes ("abd"), strCodes ("abe")] 3 (3 / 5) := by
    rw [scoredMatches_abc_eval.1]
    simp
  have h2 := (C4_suggestion_properties (strCodes ("abc"))
    [strCodes ("abd"), strCodes ("abe")]).2.1 _ hmem
  have h4 := (C4_suggestion_properties (strCodes ("abc"))
    [strCodes ("abd"), strCodes ("abe")]).2.2.2.1 _ hpmem
  exact ⟨hmem, h2.1, h2.2, hpmem, h4⟩

/-- Witness for `C7_persistFailure_no_rollback` at a concrete state and
update. -/
theorem C7_persistFailure_no_rollback_witness :
    (confirmAlias ⟨[], []⟩ (strCodes ("keta")) (strCodes ("Ketamine"))
      (normalizar_texto (strCodes ("keta"))) (adminNormalizeTarget (strCodes ("Ketamine")))
      .ioError).2 = aliasSaveFailMsg ∧
    (confirmAlias ⟨[], []⟩ (strCodes ("keta")) (strCodes ("Ketamine"))
      (normalizar_texto (strCodes ("keta"))) (adminNormalizeTarget (strCodes ("Ketamine")))
      .ioError).2 ≠ aliasSavedMsg (strCodes ("keta")) (strCodes ("Ketamine")) ∧
    resolveAlias (confirmAlias ⟨[], []⟩ (strCodes ("keta")) (strCodes ("Ketamine"))
        (normalizar_texto (strCodes ("keta"))) (adminNormalizeTarget (strCodes ("Ketamine")))
        .ioError).1.aliases (normalizar_texto (strCodes ("keta")))
      = adminNormalizeTarget (strCodes ("Ketamine")) := by
  have h := C7_persistFailure_no_rollback ⟨[], []⟩ (strCodes ("keta")) (strCodes ("Ketamine"))
  exact ⟨h.1, h.2.1 (strCodes ("keta")) (strCodes ("Ketamine")), h.2.2.2⟩


theorem lookupD_cases (m : List (Nat × Nat)) (k : Nat) :
    lookupD m k = 0 ∨ (k, lookupD m k) ∈ m := by
  unfold lookupD
  cases hf : m.find? (fun p => decide (p.1 = k)) with
  | none => exact Or.inl rfl
  | some p =>
    right
    have hmem := List.mem_of_find?_eq_some hf
    have hp := List.find?_some hf
    rw [decide_eq_true_iff] at hp
    rw [← hp]
    simpa using hmem

theorem flmInner_inv (alo ahi blo bhi i : Nat) (j2len : List (Nat × Nat))
    (hialo : alo ≤ i) (hiahi : i < ahi) (hJ : JInv alo blo bhi i j2len) :
    ∀ (js : List Nat) (nj : List (Nat × Nat)) (best : Match3),
      JInv alo blo bhi (i + 1) nj → BestInv alo ahi blo bhi best →
      BestInv alo ahi blo bhi (flmInner blo bhi i j2len js nj best).2 ∧
      JInv alo blo bhi (i + 1) (flmInner blo bhi i j2len js nj best).1 := by
  intro js
  induction js with
  | nil =>
    intro nj best hNJ hB
    exact ⟨hB, hNJ⟩
  | cons j js ih =>
    intro nj best hNJ hB
    simp only [flmInner]
    by_cases h1 : j < blo
    · rw [if_pos h1]
      exact ih nj best hNJ hB
    · rw [if_neg h1]
      by_cases h2 : bhi ≤ j
      · rw [if_pos h2]
        exact ⟨hB, hNJ⟩
      · rw [if_neg h2]
        have hprev1 : (if j = 0 then 0 else lookupD j2len (j - 1)) + blo ≤ j := by
          split
          · omega
          · next hj0 =>
            rcases lookupD_cases j2len (j - 1) with h | h
            · rw [h]
              omega
            · have := hJ _ h
              dsimp at this
              omega
        have hprev2 : (if j = 0 then 0 else lookupD j2len (j - 1)) + alo ≤ i := by
          split
          · omega
          · next hj0 =>
            rcases lookupD_cases j2len (j - 1) with h | h
            · rw [h]
              omega
            · have := hJ _ h
              dsimp at this
              omega
        revert hprev1 hprev2
        generalize (if j = 0 then 0 else lookupD j2len (j - 1)) = prev
        intro hprev1 hprev2
        refine ih _ _ ?_ ?_
        · intro p hp
          rcases List.mem_cons.mp hp with rfl | hp2
          · refine ⟨by dsimp only; omega, by dsimp only; omega,
              by dsimp only; omega, by dsimp only; omega⟩
          · exact hNJ p hp2
        · split
          · next hk =>
            obtain ⟨hB1, hB2, hB3, hB4⟩ := hB
            refine ⟨by dsimp only; omega, by dsimp only; omega,
              by dsimp only; omega, by dsimp only; omega⟩
          · exact hB

theorem flmLoop_inv (a : List Nat) (b2j : List (Nat × List Nat)) (alo ahi blo bhi : Nat) :
    ∀ (n start : Nat) (st : List (Nat × Nat) × Match3), alo ≤ start → start + n ≤ ahi →
      JInv alo blo bhi start st.1 → BestInv alo ahi blo bhi st.2 →
      BestInv alo ahi blo bhi
        (((List.range' start n).foldl
          (fun st i => flmInner blo bhi i st.1 (b2jLookup b2j (a.getD i 0)) [] st.2) st).2) := by
  intro n
  induction n with
  | zero =>
    intro start st _ _ _ hB
    simpa using hB
  | succ k ihn =>
    intro start st hs1 hs2 hJ hB
    rw [List.range'_succ, List.foldl_cons]
    have h := flmInner_inv alo ahi blo bhi start st.1 hs1 (by omega) hJ
      (b2jLookup b2j (a.getD start 0)) [] st.2 (by intro p hp; simp at hp) hB
    exact ihn (start + 1) _ (by omega) (by omega) h.2 h.1

theorem flmMain_inv (a : List Nat) (b2j : List (Nat × List Nat)) (alo ahi blo bhi : Nat)
    (hab : alo ≤ ahi) (hbb : blo ≤ bhi) :
    BestInv alo ahi blo bhi (flmMain a b2j alo ahi blo bhi) := by
  unfold flmMain
  exact flmLoop_inv a b2j alo ahi blo bhi (ahi - alo) alo ([], ⟨alo, blo, 0⟩)
    (le_refl alo) (by omega) (by intro p hp; simp at hp)
    ⟨le_refl alo, by dsimp only; omega, le_refl blo, by dsimp only; omega⟩

theorem extendLower_inv (a b : List Nat) (alo ahi blo bhi : Nat) :
    ∀ (fuel : Nat) (best : Match3), BestInv alo ahi blo bhi best →
      BestInv alo ahi blo bhi (extendLower a b alo blo fuel best) := by
  intro fuel
  induction fuel with
  | zero => intro best hB; exact hB
  | succ f ih =>
    intro best hB
    unfold extendLower
    split
    · next hc =>
      obtain ⟨hc1, hc2, _⟩ := hc
      obtain ⟨hB1, hB2, hB3, hB4⟩ := hB
      refine ih _ ?_
      refine ⟨?_, ?_, ?_, ?_⟩ <;> dsimp only <;> omega
    · exact hB

theorem extendUpper_inv (a b : List Nat) (alo ahi blo bhi : Nat) :
    ∀ (fuel : Nat) (best : Match3), BestInv alo ahi blo bhi best →
      BestInv alo ahi blo bhi (extendUpper a b ahi bhi fuel best) := by
  intro fuel
  induction fuel with
  | zero => intro best hB; exact hB
  | succ f ih =>
    intro best hB
    unfold extendUpper
    split
    · next hc =>
      obtain ⟨hc1, hc2, _⟩ := hc
      obtain ⟨hB1, hB2, hB3, hB4⟩ := hB
      refine ih _ ?_
      refine ⟨?_, ?_, ?_, ?_⟩ <;> dsimp only <;> omega
    · exact hB

theorem flm_inv (a b : List Nat) (b2j : List (Nat × List Nat)) (alo ahi blo bhi : Nat)
    (hab : alo ≤ ahi) (hbb : blo ≤ bhi) :
    BestInv alo ahi blo bhi (find_longest_match a b b2j alo ahi blo bhi) := by
  unfold find_longest_match
  exact extendUpper_inv a b alo ahi blo bhi ahi _
    (extendLower_inv a b alo ahi blo bhi _ _ (flmMain_inv a b2j alo ahi blo bhi hab hbb))

/-- The fuel given to the matching-blocks recursion is irrelevant
provided it exceeds the window measure, so the initial fuel
`la + lb + 1` in `get_matching_blocks` reproduces the unbounded CPython
recursion exactly. -/
theorem matchingBlocksGo_fuel (a b : List Nat) (b2j : List (Nat × List Nat)) :
    ∀ (f1 f2 alo ahi blo bhi : Nat), alo ≤ ahi → blo ≤ bhi →
      (ahi - alo) + (bhi - blo) < f1 → (ahi - alo) + (bhi - blo) < f2 →
      matchingBlocksGo a b b2j f1 alo ahi blo bhi =
        matchingBlocksGo a b b2j f2 alo ahi blo bhi := by
  intro f1
  induction f1 with
  | zero =>
    intro f2 alo ahi blo bhi _ _ h1 _
    omega
  | succ f ih =>
    intro f2 alo ahi blo bhi hab hbb h1 h2
    cases f2 with
    | zero => omega
    | succ g =>
      have hinv := flm_inv a b b2j alo ahi blo bhi hab hbb
      obtain ⟨hi1, hi2, hi3, hi4⟩ := hinv
      simp only [matchingBlocksGo]
      by_cases hsz : (find_longest_match a b b2j alo ahi blo bhi).size = 0
      · rw [if_pos hsz, if_pos hsz]
      · rw [if_neg hsz, if_neg hsz]
        congr 1
        · congr 1
          split
          · next hc =>
            exact ih g alo (find_longest_match a b b2j alo ahi blo bhi).besti blo
              (find_longest_match a b b2j alo ahi blo bhi).bestj
              (by omega) (by omega) (by omega) (by omega)
          · rfl
        · split
          · next hc =>
            exact ih g ((find_longest_match a b b2j alo ahi blo bhi).besti +
                (find_longest_match a b b2j alo ahi blo bhi).size) ahi
              ((find_longest_match a b b2j alo ahi blo bhi).bestj +
                (find_longest_match a b b2j alo ahi blo bhi).size) bhi
              (by omega) (by omega) (by omega) (by omega)
          · rfl
